import Mathlib

/-!
Shallow embedding of `src/ntex/src/http/client/sender.rs` (the client-side
request-dispatch layer of the ntex HTTP client) and proofs about it.

Conventions of the embedding:
* Rust methods that mutate `self` become Lean functions returning the new
  value (paired with the Rust return value where there is one).
* Opaque collaborators that live outside this file in the repository
  (header-value validation, the decompression `Decoder`, the timer `Delay`,
  the transport connector) are modelled from the spec; each such definition
  carries a doc comment saying so.
* The inner boxed send future and the delay are polled through an explicit
  environment (`PollEnv`) recording what each sub-poll would return in the
  current cycle, which is exactly the information the Rust `poll` consumes.
-/

namespace Ntex

/-- A header name (Rust `HeaderName`); modelled as its lowercase text. -/
abbrev HeaderName := String

/-- A validated header value (Rust `HeaderValue`). -/
structure HeaderValue where
  raw : String
deriving DecidableEq

/-- Rust `HeaderMap`: insertion-ordered map from header names to values.
`insert` replaces any existing entries for the key, as ntex's map does. -/
structure HeaderMap where
  entries : List (HeaderName × HeaderValue)
deriving DecidableEq

/-- Rust `HeaderMap::new()`. -/
def HeaderMap.new : HeaderMap := ⟨[]⟩

/-- Rust `HeaderMap::contains_key`. -/
def HeaderMap.contains_key (m : HeaderMap) (k : HeaderName) : Bool :=
  m.entries.any (fun p => p.1 == k)

/-- Rust `HeaderMap::insert`: replaces previous entries for the key. -/
def HeaderMap.insert (m : HeaderMap) (k : HeaderName) (v : HeaderValue) : HeaderMap :=
  ⟨(k, v) :: m.entries.filter (fun p => !(p.1 == k))⟩

/-- Lookup of the first value for a key (used by the decoder selection). -/
def HeaderMap.get (m : HeaderMap) (k : HeaderName) : Option HeaderValue :=
  (m.entries.find? (fun p => p.1 == k)).map (fun p => p.2)

/-- Rust `crate::http::error::HttpError`, opaque here; the only constructor
this file ever produces is the one coming from a failed header-value
conversion. -/
inductive HttpError where
  | InvalidHeaderValue
  | Other (n : Nat)
deriving DecidableEq

/-- Modelled from the spec: the repository's header-value validation
(`HeaderValue: TryFrom<&str>`, defined outside `src/`) is "a fallible
conversion from a raw value into a validated header value; conversion may
fail (invalid characters)".  We accept exactly the visible characters a
header value may contain (tab, or a byte that is at least 32 and not 127)
and fail otherwise; on failure the error converts into `HttpError`. -/
def HeaderValue.try_from (s : String) : Except HttpError HeaderValue :=
  if s.data.all (fun c => c.toNat == 9 || (Nat.ble 32 c.toNat && c.toNat != 127)) then
    Except.ok ⟨s⟩
  else
    Except.error HttpError.InvalidHeaderValue

/-- The request head's metadata (Rust `RequestHead`); this file only ever
touches its header map, the other fields ride along untouched. -/
structure RequestHead where
  headers : HeaderMap
deriving DecidableEq

/-- Rust `crate::http::RequestHeadType`: either an exclusively owned head or
a shared (`Rc`) base head plus an optional private overlay of extra
headers. -/
inductive RequestHeadType where
  | Owned (head : RequestHead)
  | Rc (head : RequestHead) (extra_headers : Option HeaderMap)
deriving DecidableEq

/-- Rust `extra_headers.iter().any(|h| h.contains_key(&key))`: whether the
optional overlay contains the key. -/
def overlayContains (extra : Option HeaderMap) (k : HeaderName) : Bool :=
  match extra with
  | some m => m.contains_key k
  | none => false

/-- Whether a key is visible on a head: in the Owned map, or (for Rc) in the
shared base or the private overlay. -/
def RequestHeadType.containsHeader (self : RequestHeadType) (k : HeaderName) : Bool :=
  match self with
  | .Owned head => head.headers.contains_key k
  | .Rc head extra => head.headers.contains_key k || overlayContains extra k

/-- Rust `RequestHeadType::set_header_if_none` (sender.rs lines 249-283).
Returns the Rust `Result<(), HttpError>` paired with the post-call value of
`self` (the Rust method mutates `self` in place). -/
def RequestHeadType.set_header_if_none (self : RequestHeadType) (key : HeaderName)
    (value : String) : Except HttpError Unit × RequestHeadType :=
  match self with
  | .Owned head =>
    if !(head.headers.contains_key key) then
      match HeaderValue.try_from value with
      | .ok v => (Except.ok (), .Owned ⟨head.headers.insert key v⟩)
      | .error e => (Except.error e, .Owned head)
    else
      (Except.ok (), .Owned head)
  | .Rc head extra_headers =>
    if !(head.headers.contains_key key) && !(overlayContains extra_headers key) then
      match HeaderValue.try_from value with
      | .ok v =>
        let h := extra_headers.getD HeaderMap.new
        (Except.ok (), .Rc head (some (h.insert key v)))
      | .error e => (Except.error e, .Rc head extra_headers)
    else
      (Except.ok (), .Rc head extra_headers)

/-- Rust `crate::http::client::error::InvalidUrl`, opaque here. -/
structure InvalidUrl where
  code : Nat
deriving DecidableEq

/-- An opaque boxed error (`Box<dyn Error>`), as produced by the JSON / form
serializers. -/
structure BoxedError where
  code : Nat
deriving DecidableEq

/-- An opaque transport-layer failure, standing for the remaining variants of
the outward send-error enum (connect, send, response-parse, ...) that the
transport future may yield and that this file never constructs itself. -/
structure ConnectError where
  code : Nat
deriving DecidableEq

/-- Rust `crate::http::client::error::SendRequestError`: the outward-facing
error of a send.  The variants named here are exactly those this file
constructs (`Url`, `Http`, `Timeout`, `Error`) plus `Connect` standing for
the transport-failure variants that only arrive through the inner future. -/
inductive SendRequestError where
  | Url (e : InvalidUrl)
  | Http (e : HttpError)
  | Timeout
  | Error (e : BoxedError)
  | Connect (e : ConnectError)
deriving DecidableEq

/-- Discriminator for the HTTP-layer variant of the outward send error. -/
def SendRequestError.isHttp : SendRequestError → Bool
  | .Http _ => true
  | _ => false

/-- Rust `crate::http::client::error::FreezeRequestError`. -/
inductive FreezeRequestError where
  | Url (e : InvalidUrl)
  | Http (e : HttpError)
deriving DecidableEq

/-- Rust `PrepForSendingError` (sender.rs lines 30-34). -/
inductive PrepForSendingError where
  | Url (e : InvalidUrl)
  | Http (e : HttpError)
deriving DecidableEq

/-- Rust `impl Into<FreezeRequestError> for PrepForSendingError`
(sender.rs lines 36-43). -/
def PrepForSendingError.intoFreezeRequestError : PrepForSendingError → FreezeRequestError
  | .Url e => .Url e
  | .Http e => .Http e

/-- Rust `impl Into<SendRequestError> for PrepForSendingError`
(sender.rs lines 45-52). -/
def PrepForSendingError.intoSendRequestError : PrepForSendingError → SendRequestError
  | .Url e => .Url e
  | .Http e => .Http e

/-- Modelled from the spec: the content-encoding values the decompression
layer (`crate::http::header::ContentEncoding`, outside `src/`) recognizes,
plus `Identity` for "pass bytes through unchanged". -/
inductive ContentEncoding where
  | Identity
  | Gzip
  | Deflate
  | Br
deriving DecidableEq

/-- Modelled from the spec: parsing a raw content-encoding header value,
unrecognized values fall back to `Identity`. -/
def ContentEncoding.fromRaw (s : String) : ContentEncoding :=
  if s = "gzip" then .Gzip
  else if s = "deflate" then .Deflate
  else if s = "br" then .Br
  else .Identity

/-- The name of the content-encoding response header. -/
def CONTENT_ENCODING : HeaderName := "content-encoding"

/-- Rust `header::CONTENT_TYPE`. -/
def CONTENT_TYPE : HeaderName := "content-type"

/-- Modelled from the spec: the decompression transform is "selected by
inspecting the response's content-encoding header (identity if
absent/unrecognized)". -/
def encodingFromHeaders (headers : HeaderMap) : ContentEncoding :=
  match headers.get CONTENT_ENCODING with
  | some v => ContentEncoding.fromRaw v.raw
  | none => .Identity

/-- An opaque raw response payload stream (Rust `PayloadStream`). -/
structure PayloadStream where
  id : Nat
deriving DecidableEq

/-- Rust `Payload`: the body slot of a client response; only the `Stream`
variant is produced by this file. -/
inductive Payload (S : Type) where
  | Stream (s : S)
  | NoPayload
deriving DecidableEq

/-- Modelled from the spec: the decompression transform
(`crate::http::encoding::Decoder`, outside `src/`) is an opaque streaming
wrapper recording the wrapped payload and the encoding it decodes. -/
structure Decoder (P : Type) where
  payload : P
  encoding : ContentEncoding
deriving DecidableEq

/-- Modelled from the spec: the transform's "select by header" constructor
(Rust `Decoder::from_headers`). -/
def Decoder.from_headers {P : Type} (payload : P) (headers : HeaderMap) : Decoder P :=
  ⟨payload, encodingFromHeaders headers⟩

/-- Modelled from the spec: the transform's "force identity" constructor
(Rust `Decoder::new`, as called with `ContentEncoding::Identity`). -/
def Decoder.new {P : Type} (payload : P) (encoding : ContentEncoding) : Decoder P :=
  ⟨payload, encoding⟩

/-- The non-body metadata of a response; passes through this layer
unchanged. -/
structure ResponseHead where
  status : Nat
  version : Nat
  headers : HeaderMap
deriving DecidableEq

/-- Rust `ClientResponse<S>`: opaque result from the transport, parameterized
by its body representation. -/
structure ClientResponse (P : Type) where
  head : ResponseHead
  payload : P
deriving DecidableEq

/-- Rust `ClientResponse::map_body`: replaces the payload, all other fields
pass through unchanged. -/
def ClientResponse.map_body {P Q : Type} (res : ClientResponse P)
    (f : ResponseHead → P → Q) : ClientResponse Q :=
  ⟨res.head, f res.head res.payload⟩

/-- A duration in milliseconds (Rust `std::time::Duration`). -/
abbrev Duration := Nat

/-- Modelled from the spec: the timer (`crate::rt::time::Delay`, outside
`src/`) is an opaque deadline object; the only thing this file does with it
is poll it, and the outcome of that sub-poll is supplied by `PollEnv`. -/
structure Delay where
  dur : Duration
deriving DecidableEq

/-- Rust `crate::rt::time::delay_for`: arms a timer for the duration. -/
def delay_for (d : Duration) : Delay := ⟨d⟩

/-- Rust `std::net::SocketAddr`, opaque here. -/
structure SocketAddr where
  addr : Nat
deriving DecidableEq

/-- An opaque caller-supplied byte-chunk stream (wrapped by Rust
`BodyStream::new`). -/
structure BodyStream where
  id : Nat
deriving DecidableEq

/-- Rust `crate::http::body::Body`, restricted to the constructors this file
uses: `Body::Empty`, `Body::Bytes`, and `Body::from_message(BodyStream)`. -/
inductive Body where
  | Empty
  | Bytes (s : String)
  | Message (m : BodyStream)
deriving DecidableEq

/-- Rust `Body::from_message(BodyStream::new(stream))`. -/
def Body.from_message (m : BodyStream) : Body := .Message m

/-- Modelled from the spec: the transport connector is consumed through one
operation "given a request head, a body, and an optional target address,
returning an asynchronous operation"; the returned opaque future is
represented by the record of those three arguments
(Rust `config.connector.send_request(self, body, addr)`). -/
structure SendFut where
  head : RequestHeadType
  body : Body
  addr : Option SocketAddr
deriving DecidableEq

/-- Rust `ClientConfig`: the client-wide configuration; this file reads only
its default timeout (the connector is modelled by `SendFut` above). -/
structure ClientConfig where
  timeout : Option Duration
deriving DecidableEq

/-- Rust `timeout.or_else(|| config.timeout)`. -/
def orElseOpt {α : Type} (a b : Option α) : Option α :=
  match a with
  | some x => some x
  | none => b

/-- Rust `SendClientRequest` (sender.rs lines 56-63): either the in-flight
state holding the send future, the optional armed delay and the decompress
flag, or the terminal-error state holding its one pending error. -/
inductive SendClientRequest where
  | Fut (send : SendFut) (delay : Option Delay) (response_decompress : Bool)
  | Err (e : Option SendRequestError)
deriving DecidableEq

/-- Rust `SendClientRequest::new` (sender.rs lines 66-73). -/
def SendClientRequest.new (send : SendFut) (response_decompress : Bool)
    (timeout : Option Duration) : SendClientRequest :=
  .Fut send (timeout.map delay_for) response_decompress

/-- Rust `impl From<SendRequestError> for SendClientRequest`
(sender.rs lines 124-128). -/
def SendClientRequest.fromSendRequestError (e : SendRequestError) : SendClientRequest :=
  .Err (some e)

/-- Rust `impl From<HttpError> for SendClientRequest` (sender.rs lines
130-134): the `HttpError` converts into the outward error's `Http` variant
before being stored. -/
def SendClientRequest.fromHttpError (e : HttpError) : SendClientRequest :=
  .Err (some (.Http e))

/-- Rust `impl From<PrepForSendingError> for SendClientRequest`
(sender.rs lines 136-140). -/
def SendClientRequest.fromPrep (e : PrepForSendingError) : SendClientRequest :=
  .Err (some e.intoSendRequestError)

deriving instance DecidableEq for Except

/-- Readiness of a sub-poll (Rust `std::task::Poll`). -/
inductive FutPoll (α : Type) where
  | Ready (a : α)
  | Pending
deriving DecidableEq

/-- What the two awaited sub-operations would answer in the current poll
cycle: whether polling the delay returns Ready (the timer has elapsed), and
what polling the inner boxed send future returns. -/
structure PollEnv where
  delayElapsed : Bool
  sendResult : FutPoll (Except SendRequestError (ClientResponse (Payload PayloadStream)))
deriving DecidableEq

/-- The outcome of one poll of the task: suspend, resolve, or fail loudly
(the Rust code reaches an explicit runtime abort, "Attempting to call
completed future"). -/
inductive PollOutcome (α : Type) where
  | pending
  | ready (a : α)
  | panicked
deriving DecidableEq

/-- The response type after body wrapping: the body is uniformly a decoder
stream whichever branch was taken (Rust output type
`ClientResponse<Decoder<Payload<PayloadStream>>>`). -/
abbrev WrappedResponse := ClientResponse (Payload (Decoder (Payload PayloadStream)))

/-- The body-wrapping step of a successful poll (sender.rs lines 97-112):
decompress on selects the decoder from the response headers, decompress off
forces the identity decoder; head fields pass through via `map_body`. -/
def wrapResponse (response_decompress : Bool)
    (res : ClientResponse (Payload PayloadStream)) : WrappedResponse :=
  res.map_body (fun head payload =>
    if response_decompress then
      Payload.Stream (Decoder.from_headers payload head.headers)
    else
      Payload.Stream (Decoder.new payload ContentEncoding.Identity))

/-- Rust `impl Future for SendClientRequest`, method `poll` (sender.rs lines
83-121), with the `compress` feature enabled.  Takes the current state and
the sub-poll outcomes of this cycle, returns the poll outcome and the
post-poll state.  In the `Fut` state: if a delay is present it is polled
first and any Ready answer short-circuits to a Timeout error; otherwise the
inner future is polled, Pending suspends, and a Ready result is returned
with its Ok body wrapped.  In the `Err` state the stored error is taken on
first poll; a second poll fails loudly. -/
def SendClientRequest.poll (this : SendClientRequest) (env : PollEnv) :
    PollOutcome (Except SendRequestError WrappedResponse) × SendClientRequest :=
  match this with
  | .Fut send delay response_decompress =>
    if delay.isSome && env.delayElapsed then
      (.ready (Except.error SendRequestError.Timeout), .Fut send delay response_decompress)
    else
      match env.sendResult with
      | .Pending => (.pending, .Fut send delay response_decompress)
      | .Ready res =>
        (.ready (res.map (wrapResponse response_decompress)),
         .Fut send delay response_decompress)
  | .Err e =>
    match e with
    | some err => (.ready (Except.error err), .Err none)
    | none => (.panicked, .Err none)

/-- Rust `RequestHeadType::send_body` (sender.rs lines 143-159). -/
def RequestHeadType.send_body (self : RequestHeadType) (addr : Option SocketAddr)
    (response_decompress : Bool) (timeout : Option Duration) (config : ClientConfig)
    (body : Body) : SendClientRequest :=
  SendClientRequest.new ⟨self, body, addr⟩ response_decompress
    (orElseOpt timeout config.timeout)

/-- Rust `RequestHeadType::send_json` (sender.rs lines 161-186).  The opaque
external serializer's outcome (`serde_json::to_string(value)`) is passed in
as `serialized`. -/
def RequestHeadType.send_json (self : RequestHeadType) (addr : Option SocketAddr)
    (response_decompress : Bool) (timeout : Option Duration) (config : ClientConfig)
    (serialized : Except BoxedError String) : SendClientRequest :=
  match serialized with
  | .error e => SendClientRequest.fromSendRequestError (.Error e)
  | .ok body =>
    match self.set_header_if_none CONTENT_TYPE "application/json" with
    | (.error e, _) => SendClientRequest.fromHttpError e
    | (.ok _, self') =>
      self'.send_body addr response_decompress timeout config (Body.Bytes body)

/-- Rust `RequestHeadType::send_form` (sender.rs lines 188-216).  The opaque
external serializer's outcome (`serde_urlencoded::to_string(value)`) is
passed in as `serialized`. -/
def RequestHeadType.send_form (self : RequestHeadType) (addr : Option SocketAddr)
    (response_decompress : Bool) (timeout : Option Duration) (config : ClientConfig)
    (serialized : Except BoxedError String) : SendClientRequest :=
  match serialized with
  | .error e => SendClientRequest.fromSendRequestError (.Error e)
  | .ok body =>
    match self.set_header_if_none CONTENT_TYPE "application/x-www-form-urlencoded" with
    | (.error e, _) => SendClientRequest.fromHttpError e
    | (.ok _, self') =>
      self'.send_body addr response_decompress timeout config (Body.Bytes body)

/-- Rust `RequestHeadType::send_stream` (sender.rs lines 218-237). -/
def RequestHeadType.send_stream (self : RequestHeadType) (addr : Option SocketAddr)
    (response_decompress : Bool) (timeout : Option Duration) (config : ClientConfig)
    (stream : BodyStream) : SendClientRequest :=
  self.send_body addr response_decompress timeout config (Body.from_message stream)

/-- Rust `RequestHeadType::send` (sender.rs lines 239-247). -/
def RequestHeadType.send (self : RequestHeadType) (addr : Option SocketAddr)
    (response_decompress : Bool) (timeout : Option Duration)
    (config : ClientConfig) : SendClientRequest :=
  self.send_body addr response_decompress timeout config Body.Empty

/-- The delay slot of a task, `none` for a terminal-error task. -/
def SendClientRequest.delayOf : SendClientRequest → Option Delay
  | .Fut _ d _ => d
  | .Err _ => none

/-! ## Helper lemmas -/

/-- Inserting a key makes it visible to `contains_key`. -/
theorem HeaderMap.contains_key_insert (m : HeaderMap) (k : HeaderName) (v : HeaderValue) :
    (m.insert k v).contains_key k = true := by
  simp [HeaderMap.insert, HeaderMap.contains_key]

/-- A key that `contains_key` does not see has no value in the map. -/
theorem HeaderMap.get_eq_none_of_not_contains (m : HeaderMap) (k : HeaderName)
    (h : m.contains_key k = false) : m.get k = none := by
  unfold HeaderMap.contains_key at h
  unfold HeaderMap.get
  have hf : m.entries.find? (fun p => p.1 == k) = none := by
    rw [List.find?_eq_none]
    intro p hp hpk
    have hany : (m.entries.any fun p => p.1 == k) = true :=
      List.any_eq_true.mpr ⟨p, hp, hpk⟩
    rw [h] at hany
    exact Bool.false_ne_true hany
  rw [hf]
  rfl

/-- For a value that validates, `set_header_if_none` always returns `Ok`
(either by inserting or because the key was already present). -/
theorem set_header_if_none_fst_ok_of_valid (self : RequestHeadType) (k : HeaderName)
    (v : String) (hv : HeaderValue) (hconv : HeaderValue.try_from v = .ok hv) :
    (self.set_header_if_none k v).1 = Except.ok () := by
  cases self with
  | Owned head =>
    unfold RequestHeadType.set_header_if_none
    cases hc : head.headers.contains_key k with
    | true => simp [hc]
    | false => simp [hc, hconv]
  | Rc head extra =>
    unfold RequestHeadType.set_header_if_none
    cases h1 : head.headers.contains_key k with
    | true => simp [h1]
    | false =>
      cases h2 : overlayContains extra k with
      | true => simp [h1, h2]
      | false => simp [h1, h2, hconv]

/-! ## Claims -/

/-- Claim C1: on every poll of an Active (`Fut`) task carrying a deadline
timer whose poll answers Ready (the timer has elapsed), the poll resolves to
the Timeout error whatever the inner transport send operation's sub-poll
would have answered — in particular even when its result is simultaneously
available — so the deadline check strictly precedes the transport check. -/
theorem claim1_timeout_precedes_transport (send : SendFut) (d : Delay)
    (response_decompress : Bool)
    (s : FutPoll (Except SendRequestError (ClientResponse (Payload PayloadStream)))) :
    SendClientRequest.poll (.Fut send (some d) response_decompress) ⟨true, s⟩
      = (.ready (Except.error SendRequestError.Timeout),
         .Fut send (some d) response_decompress) := rfl

/-- Claim C2, counterexample: an Active (`Fut`) task whose deadline has
elapsed yields the final Ready Timeout result on its first poll, stays in the
`Fut` state, and a second poll silently yields the same Timeout result again
— a duplicate final result, not a loud failure. -/
theorem claim2_counterexample :
    (SendClientRequest.poll
        (.Fut ⟨.Owned ⟨HeaderMap.new⟩, Body.Empty, none⟩ (some (delay_for 5)) false)
        ⟨true, .Pending⟩).1
      = .ready (Except.error SendRequestError.Timeout) ∧
    (SendClientRequest.poll
        (SendClientRequest.poll
          (.Fut ⟨.Owned ⟨HeaderMap.new⟩, Body.Empty, none⟩ (some (delay_for 5)) false)
          ⟨true, .Pending⟩).2
        ⟨true, .Pending⟩).1
      = .ready (Except.error SendRequestError.Timeout) := by
  exact ⟨rfl, rfl⟩

/-- Claim C2, amended: only the Terminal-error (`Err`) state fails loudly on
re-poll: its first poll yields the stored error and empties the slot, and any
later poll reaches the loud-failure outcome.  The Active (`Fut`) state is not
re-poll protected by this code: after yielding a final result it stays in the
`Fut` state, and a task whose deadline has elapsed yields the Timeout error
again on every subsequent poll instead of failing loudly. -/
theorem claim2_amended (e : SendRequestError) (env env2 : PollEnv) (send : SendFut)
    (d : Delay) (b : Bool)
    (s s2 : FutPoll (Except SendRequestError (ClientResponse (Payload PayloadStream)))) :
    SendClientRequest.poll (.Err (some e)) env
      = (.ready (Except.error e), .Err none) ∧
    SendClientRequest.poll (.Err none) env2 = (.panicked, .Err none) ∧
    (SendClientRequest.poll
        (SendClientRequest.poll (.Fut send (some d) b) ⟨true, s⟩).2 ⟨true, s2⟩).1
      = .ready (Except.error SendRequestError.Timeout) :=
  ⟨rfl, rfl, rfl⟩

/-- Claim C3: on a Shared (`Rc`) head, `set_header_if_none` with a key
visible in the shared base or the private overlay is a no-op returning `Ok`
(base, overlay and everything else unchanged, no overlay allocation); with a
key absent from both and a value that validates, it returns `Ok` and inserts
only into the overlay — created on first use via `HeaderMap.new` — while the
shared base component is unchanged. -/
theorem claim3_rc_set_header (head : RequestHead) (extra : Option HeaderMap)
    (k : HeaderName) (v : String) :
    ((head.headers.contains_key k || overlayContains extra k) = true →
      (RequestHeadType.Rc head extra).set_header_if_none k v
        = (Except.ok (), .Rc head extra)) ∧
    ((head.headers.contains_key k || overlayContains extra k) = false →
      ∀ hv, HeaderValue.try_from v = .ok hv →
        (RequestHeadType.Rc head extra).set_header_if_none k v
          = (Except.ok (), .Rc head (some ((extra.getD HeaderMap.new).insert k hv)))) := by
  constructor
  · intro h
    unfold RequestHeadType.set_header_if_none
    cases hb : head.headers.contains_key k with
    | true => simp [hb]
    | false =>
      rw [hb] at h
      simp only [Bool.false_or] at h
      simp [hb, h]
  · intro h hv hconv
    cases hb : head.headers.contains_key k with
    | true => rw [hb] at h; simp at h
    | false =>
      rw [hb] at h
      simp only [Bool.false_or] at h
      unfold RequestHeadType.set_header_if_none
      simp [hb, h, hconv]

/-- Claim C3, witness: instantiates `claim3_rc_set_header` on a shared head
whose base already carries content-type (no-op branch) and on an empty shared
head with no overlay (insert-into-fresh-overlay branch). -/
theorem claim3_witness :
    ((RequestHeadType.Rc ⟨⟨[("content-type", ⟨"text/plain"⟩)]⟩⟩ none).set_header_if_none
        "content-type" "application/json"
      = (Except.ok (), .Rc ⟨⟨[("content-type", ⟨"text/plain"⟩)]⟩⟩ none)) ∧
    ((RequestHeadType.Rc ⟨⟨[]⟩⟩ none).set_header_if_none "content-type" "application/json"
      = (Except.ok (),
         .Rc ⟨⟨[]⟩⟩ (some (HeaderMap.new.insert "content-type" ⟨"application/json"⟩)))) :=
  ⟨(claim3_rc_set_header ⟨⟨[("content-type", ⟨"text/plain"⟩)]⟩⟩ none
      "content-type" "application/json").1 (by decide),
   (claim3_rc_set_header ⟨⟨[]⟩⟩ none "content-type" "application/json").2 (by decide)
      ⟨"application/json"⟩ (by decide)⟩

/-- Claim C4: when an Active task's inner send operation completes with a
response, the body is wrapped in a decoder stream whose encoding is selected
from the response's content-encoding header when the decompress flag is true
and is forced to Identity when the flag is false (whatever encoding the
response declares), the selection falling back to Identity when the header is
absent; all other response fields (the head) pass through unchanged. -/
theorem claim4_decompress_wrapping (send : SendFut) (b s : Bool)
    (res : ClientResponse (Payload PayloadStream)) :
    (SendClientRequest.poll (.Fut send none b) ⟨s, .Ready (Except.ok res)⟩
      = (.ready (Except.ok
          { head := res.head
            payload := Payload.Stream
              { payload := res.payload
                encoding :=
                  if b then encodingFromHeaders res.head.headers
                  else ContentEncoding.Identity } }),
         .Fut send none b)) ∧
    (∀ headers : HeaderMap, headers.contains_key CONTENT_ENCODING = false →
      encodingFromHeaders headers = .Identity) := by
  constructor
  · cases b <;> rfl
  · intro headers h
    unfold encodingFromHeaders
    rw [HeaderMap.get_eq_none_of_not_contains headers CONTENT_ENCODING h]

/-- Claim C4, witness: instantiates `claim4_decompress_wrapping` on a
response that declares `content-encoding: gzip` polled with the decompress
flag off — the body is still wrapped with the Identity encoding — and on the
empty header map for the absent-header fallback. -/
theorem claim4_witness :
    (SendClientRequest.poll
        (.Fut ⟨.Owned ⟨HeaderMap.new⟩, Body.Empty, none⟩ none false)
        ⟨false, .Ready (Except.ok
          ⟨⟨200, 11, ⟨[("content-encoding", ⟨"gzip"⟩)]⟩⟩, .Stream ⟨3⟩⟩)⟩
      = (.ready (Except.ok
          ⟨⟨200, 11, ⟨[("content-encoding", ⟨"gzip"⟩)]⟩⟩,
           Payload.Stream ⟨.Stream ⟨3⟩, ContentEncoding.Identity⟩⟩),
         .Fut ⟨.Owned ⟨HeaderMap.new⟩, Body.Empty, none⟩ none false)) ∧
    encodingFromHeaders ⟨[]⟩ = .Identity :=
  ⟨(claim4_decompress_wrapping ⟨.Owned ⟨HeaderMap.new⟩, Body.Empty, none⟩ false false
      ⟨⟨200, 11, ⟨[("content-encoding", ⟨"gzip"⟩)]⟩⟩, .Stream ⟨3⟩⟩).1,
   (claim4_decompress_wrapping ⟨.Owned ⟨HeaderMap.new⟩, Body.Empty, none⟩ false false
      ⟨⟨200, 11, ⟨[]⟩⟩, .Stream ⟨3⟩⟩).2 ⟨[]⟩ (by decide)⟩

/-- Claim C5: a failed serialization in `send_json` or `send_form` returns a
task that is already the terminal `Err` state holding the wrapped
serialization error — the `Err` constructor carries no `SendFut`, so the
transport send operation is never constructed and the failure is observable
synchronously, before any transport I/O. -/
theorem claim5_serialization_failure_short_circuits (self self2 : RequestHeadType)
    (addr addr2 : Option SocketAddr) (b b2 : Bool) (t t2 : Option Duration)
    (cfg cfg2 : ClientConfig) (e e2 : BoxedError) :
    self.send_json addr b t cfg (Except.error e)
      = SendClientRequest.Err (some (SendRequestError.Error e)) ∧
    self2.send_form addr2 b2 t2 cfg2 (Except.error e2)
      = SendClientRequest.Err (some (SendRequestError.Error e2)) :=
  ⟨rfl, rfl⟩

/-- Claim C6, counterexample: a serialization failure is stored as the
generic boxed `Error` variant of the outward send error, which is not the
HTTP-layer (`Http`) variant — the variant that a malformed header maps to
under `PrepForSendingError.intoSendRequestError` — so the claim that a
serialization failure maps to the HTTP-layer error variant fails at this
input. -/
theorem claim6_counterexample :
    (RequestHeadType.Owned ⟨HeaderMap.new⟩).send_json none false none ⟨none⟩
        (Except.error ⟨7⟩)
      = SendClientRequest.Err (some (SendRequestError.Error ⟨7⟩)) ∧
    SendRequestError.isHttp (SendRequestError.Error ⟨7⟩) = false ∧
    PrepForSendingError.intoSendRequestError (.Http HttpError.InvalidHeaderValue)
      = SendRequestError.Http HttpError.InvalidHeaderValue := by
  exact ⟨rfl, rfl, rfl⟩

/-- Claim C6, amended: the conversion of internal failures into the outward
send error is exhaustive and maps a malformed URL to the URL variant, a
malformed header to the HTTP-layer variant, a serialization failure to the
generic boxed `Error` variant, an elapsed deadline to the dedicated Timeout
variant, and passes a transport failure through unchanged. -/
theorem claim6_amended (u : InvalidUrl) (h : HttpError) (self : RequestHeadType)
    (addr : Option SocketAddr) (b : Bool) (t : Option Duration) (cfg : ClientConfig)
    (e : BoxedError) (send : SendFut) (d : Delay) (dec dec2 : Bool) (s2 : Bool)
    (s : FutPoll (Except SendRequestError (ClientResponse (Payload PayloadStream))))
    (te : SendRequestError) :
    PrepForSendingError.intoSendRequestError (.Url u) = SendRequestError.Url u ∧
    PrepForSendingError.intoSendRequestError (.Http h) = SendRequestError.Http h ∧
    self.send_json addr b t cfg (Except.error e)
      = SendClientRequest.Err (some (SendRequestError.Error e)) ∧
    SendClientRequest.poll (.Fut send (some d) dec) ⟨true, s⟩
      = (.ready (Except.error SendRequestError.Timeout), .Fut send (some d) dec) ∧
    SendClientRequest.poll (.Fut send none dec2) ⟨s2, .Ready (Except.error te)⟩
      = (.ready (Except.error te), .Fut send none dec2) :=
  ⟨rfl, rfl, rfl, rfl, rfl⟩

/-- Claim C7: every body-dispatch entry point installs as deadline the
per-request timeout when one is supplied, otherwise the client
configuration's default timeout, and arms no timer when both are unset:
`send_body` passes `orElseOpt timeout config.timeout` to the task, whose
delay is its `delay_for` image, and `send`, `send_stream`, `send_json` and
`send_form` (on the successful serialization path) all install that same
delay. -/
theorem claim7_deadline_selection (self : RequestHeadType) (addr : Option SocketAddr)
    (b : Bool) (t : Option Duration) (cfg : ClientConfig) (body : Body)
    (d : Duration) (st : BodyStream) (s : String) :
    self.send_body addr b t cfg body
      = .Fut ⟨self, body, addr⟩ ((orElseOpt t cfg.timeout).map delay_for) b ∧
    (self.send_body addr b (some d) cfg body).delayOf = some (delay_for d) ∧
    (self.send_body addr b none cfg body).delayOf = cfg.timeout.map delay_for ∧
    (self.send_body addr b none ⟨none⟩ body).delayOf = none ∧
    (self.send addr b t cfg).delayOf = (orElseOpt t cfg.timeout).map delay_for ∧
    (self.send_stream addr b t cfg st).delayOf
      = (orElseOpt t cfg.timeout).map delay_for ∧
    (self.send_json addr b t cfg (Except.ok s)).delayOf
      = (orElseOpt t cfg.timeout).map delay_for ∧
    (self.send_form addr b t cfg (Except.ok s)).delayOf
      = (orElseOpt t cfg.timeout).map delay_for := by
  refine ⟨rfl, rfl, rfl, rfl, rfl, rfl, ?_, ?_⟩
  · have hok := set_header_if_none_fst_ok_of_valid self CONTENT_TYPE "application/json"
      ⟨"application/json"⟩ (by decide)
    unfold RequestHeadType.send_json
    rcases hE : self.set_header_if_none CONTENT_TYPE "application/json" with ⟨r, self'⟩
    rw [hE] at hok
    simp only at hok
    subst hok
    simp [RequestHeadType.send_body, SendClientRequest.new, SendClientRequest.delayOf]
  · have hok := set_header_if_none_fst_ok_of_valid self CONTENT_TYPE
      "application/x-www-form-urlencoded" ⟨"application/x-www-form-urlencoded"⟩ (by decide)
    unfold RequestHeadType.send_form
    rcases hE : self.set_header_if_none CONTENT_TYPE "application/x-www-form-urlencoded"
      with ⟨r, self'⟩
    rw [hE] at hok
    simp only at hok
    subst hok
    simp [RequestHeadType.send_body, SendClientRequest.new, SendClientRequest.delayOf]

/-- Claim C8: on an Owned head, `set_header_if_none` is idempotent — calling
it twice with the same key and value leaves the header map observably
identical to calling it once, in every case (key already present, fresh
insert after successful validation, or failed validation). -/
theorem claim8_owned_idempotent (head : RequestHead) (k : HeaderName) (v : String) :
    (((RequestHeadType.Owned head).set_header_if_none k v).2.set_header_if_none k v).2
      = ((RequestHeadType.Owned head).set_header_if_none k v).2 := by
  cases hc : head.headers.contains_key k with
  | true =>
    unfold RequestHeadType.set_header_if_none
    simp [hc]
  | false =>
    cases hconv : HeaderValue.try_from v with
    | ok hv =>
      unfold RequestHeadType.set_header_if_none
      simp [hc, hconv, HeaderMap.contains_key_insert]
    | error e =>
      unfold RequestHeadType.set_header_if_none
      simp [hc, hconv]

/-- Claim C9, counterexample: on a head whose map already contains the key,
`set_header_if_none` with a value that fails validation returns `Ok` and not
the validation error, so the claim as stated — every failing value makes the
call return the validation error — is false at this input. -/
theorem claim9_counterexample :
    HeaderValue.try_from "\n" = Except.error HttpError.InvalidHeaderValue ∧
    (RequestHeadType.Owned ⟨⟨[("content-type", ⟨"text/plain"⟩)]⟩⟩).set_header_if_none
        "content-type" "\n"
      = (Except.ok (), .Owned ⟨⟨[("content-type", ⟨"text/plain"⟩)]⟩⟩) := by
  exact ⟨by decide, by decide⟩

/-- Claim C9, amended: for every head (Owned or Shared) in which the key is
not already visible, `set_header_if_none` with a value whose conversion fails
returns the validation error and leaves the head completely unchanged — no
header inserted and, for a Shared head, no overlay allocated. -/
theorem claim9_amended (self : RequestHeadType) (k : HeaderName) (v : String)
    (e : HttpError) (hvis : self.containsHeader k = false)
    (hconv : HeaderValue.try_from v = Except.error e) :
    self.set_header_if_none k v = (Except.error e, self) := by
  cases self with
  | Owned head =>
    simp only [RequestHeadType.containsHeader] at hvis
    unfold RequestHeadType.set_header_if_none
    simp [hvis, hconv]
  | Rc head extra =>
    simp only [RequestHeadType.containsHeader] at hvis
    cases h1 : head.headers.contains_key k with
    | true => rw [h1] at hvis; simp at hvis
    | false =>
      rw [h1] at hvis
      simp only [Bool.false_or] at hvis
      unfold RequestHeadType.set_header_if_none
      simp [h1, hvis, hconv]

/-- Claim C9 amended, witness: instantiates `claim9_amended` on a shared head
with empty base, no overlay, and an invalid value. -/
theorem claim9_witness :
    (RequestHeadType.Rc ⟨⟨[]⟩⟩ none).set_header_if_none "content-type" "\n"
      = (Except.error HttpError.InvalidHeaderValue, .Rc ⟨⟨[]⟩⟩ none) :=
  claim9_amended (.Rc ⟨⟨[]⟩⟩ none) "content-type" "\n" HttpError.InvalidHeaderValue
    (by decide) (by decide)

/-- Claim C10: when the key is already visible on the head (Owned map, or
Shared base or overlay), `set_header_if_none` returns `Ok` with the head
unchanged for every supplied value — the value conversion is never attempted,
so the call succeeds even for values that would fail validation. -/
theorem claim10_present_skips_validation (self : RequestHeadType) (k : HeaderName)
    (v : String) (h : self.containsHeader k = true) :
    self.set_header_if_none k v = (Except.ok (), self) := by
  cases self with
  | Owned head =>
    simp only [RequestHeadType.containsHeader] at h
    unfold RequestHeadType.set_header_if_none
    simp [h]
  | Rc head extra =>
    simp only [RequestHeadType.containsHeader] at h
    unfold RequestHeadType.set_header_if_none
    cases h1 : head.headers.contains_key k with
    | true => simp [h1]
    | false =>
      rw [h1] at h
      simp only [Bool.false_or] at h
      simp [h1, h]

/-- Claim C10, witness: instantiates `claim10_present_skips_validation` on an
Owned head that already carries content-type and a value that would fail
validation — the call still returns `Ok`. -/
theorem claim10_witness :
    (RequestHeadType.Owned ⟨⟨[("content-type", ⟨"text/html"⟩)]⟩⟩).set_header_if_none
        "content-type" "bad\nvalue"
      = (Except.ok (), .Owned ⟨⟨[("content-type", ⟨"text/html"⟩)]⟩⟩) ∧
    HeaderValue.try_from "bad\nvalue" = Except.error HttpError.InvalidHeaderValue :=
  ⟨claim10_present_skips_validation (.Owned ⟨⟨[("content-type", ⟨"text/html"⟩)]⟩⟩)
      "content-type" "bad\nvalue" (by decide),
   by decide⟩

end Ntex
